import Mathlib

/-!
Verification development for HERMES, a semantic code search engine.

The repository ships a TypeScript web UI (embedded below from the files under
src/web and the unnamed client components) in front of a Python serving core.
The Python core (rank fusion, dense index, search pipeline, HTTP surface) is
not part of the shipped sources; those components are modelled faithfully from
the specification's §4.2, §4.6, §4.7 and §6, as marked on each definition.

All arithmetic is exact (ℚ for scores, ℤ/ℕ for counts); machine floats are out
of scope.
-/

/-! ## Rank fusion (Reciprocal Rank Fusion), modelled from spec §4.6 -/

/-- Modelled from the spec: `rank_in_L`, the 0-based position of a chunk id in a
ranked list of `(chunk_id, score)` pairs, `none` when the list does not contain
the id. Part of the Rank Fusion component missing from the shipped sources. -/
def rankOf (cid : ℕ) : List (ℕ × ℚ) → Option ℕ
  | [] => none
  | p :: rest => if p.1 = cid then some 0 else (rankOf cid rest).map (· + 1)

/-- Modelled from the spec: the fused RRF score of a chunk id,
`Σ over lists L containing it of 1 / (k + rank_in_L + 1)` (spec §4.6). The Rank
Fusion implementation is missing from the shipped sources. -/
def rrfScore (k : ℕ) (lists : List (List (ℕ × ℚ))) (cid : ℕ) : ℚ :=
  (lists.filterMap (fun L => (rankOf cid L).map (fun r => 1 / ((k : ℚ) + r + 1)))).sum

/-- Ordering on `(chunk_id, score)` pairs: score descending, ties broken by
ascending chunk id (spec §4.6 output order, also the order of the index search
contracts of §4.2/§4.3). -/
def rrfLe (a b : ℕ × ℚ) : Prop := b.2 < a.2 ∨ (a.2 = b.2 ∧ a.1 ≤ b.1)

instance : DecidableRel rrfLe := fun a b => by unfold rrfLe; exact inferInstance

instance : IsTotal (ℕ × ℚ) rrfLe := by
  constructor
  intro a b
  rcases lt_trichotomy a.2 b.2 with h | h | h
  · exact Or.inr (Or.inl h)
  · rcases Nat.le_total a.1 b.1 with hid | hid
    · exact Or.inl (Or.inr ⟨h, hid⟩)
    · exact Or.inr (Or.inr ⟨h.symm, hid⟩)
  · exact Or.inl (Or.inl h)

instance : IsTrans (ℕ × ℚ) rrfLe := by
  constructor
  intro a b c hab hbc
  rcases hab with h1 | ⟨h1, h1id⟩
  · rcases hbc with h2 | ⟨h2, _⟩
    · exact Or.inl (h2.trans h1)
    · exact Or.inl (h2 ▸ h1)
  · rcases hbc with h2 | ⟨h2, h2id⟩
    · exact Or.inl (h1 ▸ h2)
    · exact Or.inr ⟨h1.trans h2, h1id.trans h2id⟩

/-- Modelled from the spec: Reciprocal Rank Fusion (spec §4.6). For each chunk
id present in any input list compute the fused score, then sort by fused score
descending with ties broken by ascending chunk id. The original per-retriever
scores are discarded. The implementation is missing from the shipped sources. -/
def reciprocal_rank_fusion (k : ℕ) (lists : List (List (ℕ × ℚ))) : List (ℕ × ℚ) :=
  (((lists.flatten.map Prod.fst).dedup).map (fun cid => (cid, rrfScore k lists cid))).insertionSort rrfLe

/-! ## Dense Index search, modelled from spec §4.2 -/

/-- Inner product of two rational vectors of dimension `d`. On L2-normalized
rows this is the cosine similarity the Dense Index scores with (spec §3, §4.2). -/
def dot (d : ℕ) (x y : Fin d → ℚ) : ℚ := ∑ i, x i * y i

/-- Modelled from the spec: score every corpus row against the query, pairing
each row with its chunk id; ids are the row positions, numbered from `n`
(spec §3's shared id space: `chunk_id` is the row position in the embedding
matrix). The Dense Index implementation is missing from the shipped sources. -/
def scoreRows (d : ℕ) (q : Fin d → ℚ) (n : ℕ) : List (Fin d → ℚ) → List (ℕ × ℚ)
  | [] => []
  | v :: rest => (n, dot d v q) :: scoreRows d q (n + 1) rest

/-- Modelled from the spec: the Dense Index (Flat, exact) search contract of
§4.2: `search(query_vec, k)` scores all vectors by inner product and returns
the top `k` pairs in descending score, ties broken by ascending chunk id. The
implementation is missing from the shipped sources. -/
def denseSearch (d : ℕ) (corpus : List (Fin d → ℚ)) (q : Fin d → ℚ) (k : ℕ) : List (ℕ × ℚ) :=
  ((scoreRows d q 0 corpus).insertionSort rrfLe).take k

/-! ## Search pipeline stages 4-5, modelled from spec §4.7 -/

/-- A retrieval candidate after the filter stage: chunk id, 1-based retrieval
rank (position after stage 3), and retrieval score (spec §4.7 stage 5). -/
structure Candidate where
  chunk_id : ℕ
  retrieval_rank : ℕ
  retrieval_score : ℚ

/-- A result row of the search response (spec §4.7 stage 5): `rerank_score` is
`none` exactly when reranking was skipped, `final_rank` is the 1-based position
after stage 4. -/
structure SearchResult where
  chunk_id : ℕ
  retrieval_rank : ℕ
  retrieval_score : ℚ
  rerank_score : Option ℚ
  final_rank : ℕ

/-- Modelled from the spec: attach 1-based retrieval ranks (counting from `n`)
to the post-filter candidate list (spec §4.7 stage 5: `retrieval_rank` is the
1-based position after stage 3). -/
def numberCandidates (n : ℕ) : List (ℕ × ℚ) → List Candidate
  | [] => []
  | p :: rest => ⟨p.1, n, p.2⟩ :: numberCandidates (n + 1) rest

/-- Rerank ordering (spec §4.7 stage 4): cross-encoder score descending, ties
broken by original retrieval rank ascending. -/
def ceLe (a b : Candidate × ℚ) : Prop :=
  b.2 < a.2 ∨ (a.2 = b.2 ∧ a.1.retrieval_rank ≤ b.1.retrieval_rank)

instance : DecidableRel ceLe := fun a b => by unfold ceLe; exact inferInstance

/-- Modelled from the spec: stage 4 of the pipeline (spec §4.7). The
cross-encoder outcome is `some scores` on success (scores aligned with the
first `min(len, max_rerank_candidates)` candidates) and `none` on timeout or
error. On success the capped candidates are re-sorted by cross-encoder score
descending with retrieval-rank tiebreak; on `none` reranking is skipped, the
returned Bool flag `rerank_skipped` is true and candidates retain retrieval
order. The implementation is missing from the shipped sources. -/
def rerankStage (maxCands : ℕ) (cands : List Candidate) :
    Option (List ℚ) → List (Candidate × Option ℚ) × Bool
  | none => (cands.map (fun c => (c, none)), true)
  | some scores =>
      ((((cands.take maxCands).zip scores).insertionSort ceLe).map (fun p => (p.1, some p.2)),
        false)

/-- Modelled from the spec: number the assembled results with 1-based final
ranks counting from `n` (spec §4.7 stage 5: `final_rank` is the 1-based
position after stage 4). -/
def numberResults (n : ℕ) : List (Candidate × Option ℚ) → List SearchResult
  | [] => []
  | p :: rest =>
      ⟨p.1.chunk_id, p.1.retrieval_rank, p.1.retrieval_score, p.2, n⟩ :: numberResults (n + 1) rest

/-- Modelled from the spec: stage 5 of the pipeline (spec §4.7): keep the first
`top_k_rerank` ordered candidates and emit result rows with 1-based final
ranks. The implementation is missing from the shipped sources. -/
def assembleStage (topK : ℕ) (ordered : List (Candidate × Option ℚ)) : List SearchResult :=
  numberResults 1 (ordered.take topK)

/-- Modelled from the spec: stages 4-5 of the pipeline chained together
(spec §4.7): rank the post-filter candidates, rerank them under the
cross-encoder outcome `ce`, truncate and assemble. Returns the result rows and
the `rerank_skipped` flag. The implementation is missing from the shipped
sources. -/
def pipelineTail (maxCands topK : ℕ) (candidates : List (ℕ × ℚ)) (ce : Option (List ℚ)) :
    List SearchResult × Bool :=
  let st := rerankStage maxCands (numberCandidates 1 candidates) ce
  (assembleStage topK st.1, st.2)

/-! ## Serving surface, modelled from spec §4.9 and §6 -/

/-- The search request wire form (spec §4.7 / §6). -/
structure SearchRequest where
  query : String
  top_k_retrieve : ℕ
  top_k_rerank : ℕ
  retrieval_mode : String
  filter_language : Option String
  filter_path_prefix : Option String
  return_snippets : Bool

/-- An HTTP endpoint outcome: a success body, or a client error carrying the
status code and the `detail` field of the JSON error body (spec §6). -/
inductive ApiResponse (α : Type) where
  | ok (body : α)
  | clientError (status : ℕ) (detail : String)

/-- Modelled from the spec: the loaded pipeline held behind the serving
surface's atomic reference (spec §4.9): its chunk count, a retriever producing
ranked candidates for a query, and the cross-encoder call whose outcome is
`none` on timeout or error. The implementation is missing from the shipped
sources. -/
structure Pipeline where
  nChunks : ℕ
  retrieve : String → List (ℕ × ℚ)
  rerank : String → List (ℕ × ℚ) → Option (List ℚ)

/-- The error detail returned by endpoints that need a loaded pipeline when
none is present (spec §6). -/
def noIndexDetail : String := "No index loaded. Please index a repository first."

/-- Modelled from the spec: POST /search (spec §6). With no pipeline loaded it
returns HTTP 400 with the no-index detail and leaves the state unchanged;
otherwise it runs retrieval and the rerank/assemble stages. The implementation
is missing from the shipped sources. -/
def handleSearch (st : Option Pipeline) (req : SearchRequest) :
    ApiResponse (List SearchResult × Bool) × Option Pipeline :=
  match st with
  | none => (ApiResponse.clientError 400 noIndexDetail, none)
  | some p =>
      let cands := (p.retrieve req.query).take req.top_k_retrieve
      (ApiResponse.ok (pipelineTail 50 req.top_k_rerank cands (p.rerank req.query cands)), some p)

/-- Modelled from the spec: GET /stats (spec §6). With no pipeline loaded it
returns HTTP 400 with the no-index detail and leaves the state unchanged. The
implementation is missing from the shipped sources. -/
def handleStats (st : Option Pipeline) : ApiResponse ℕ × Option Pipeline :=
  match st with
  | none => (ApiResponse.clientError 400 noIndexDetail, none)
  | some p => (ApiResponse.ok p.nChunks, some p)

/-- Modelled from the spec: POST /reload-index (spec §6). With no pipeline
loaded it returns HTTP 400 with the no-index detail and leaves the state
unchanged; otherwise it swaps in the freshly built pipeline and reports its
chunk count. The implementation is missing from the shipped sources. -/
def handleReloadIndex (st : Option Pipeline) (rebuilt : Pipeline) :
    ApiResponse ℕ × Option Pipeline :=
  match st with
  | none => (ApiResponse.clientError 400 noIndexDetail, none)
  | some _ => (ApiResponse.ok rebuilt.nChunks, some rebuilt)

/-! ## Indexing status, modelled from spec §4.8 and §6, plus the welcome screen
from the shipped client component (src/unnamed/part_000) -/

/-- Modelled from the spec: the Index Build Orchestrator state machine
`idle → indexing → done | error` (spec §4.8). The implementation is missing
from the shipped sources. -/
inductive IndexJobState where
  | idle
  | indexing (repoPath : String)
  | done (repoPath : String) (summary : List (String × ℕ))
  | error (repoPath : String) (message : String)

/-- The GET /index/status wire form `{state, repo_path?, summary?, message?}`
(spec §6), as consumed by the web client's IndexStatusResponse type. -/
structure IndexStatusResponse where
  state : String
  repo_path : Option String
  summary : Option (List (String × ℕ))
  message : Option String

/-- Modelled from the spec: the GET /index/status response for each orchestrator
state: `summary` present only in `done`, `message` only in `error` (spec §6).
The implementation is missing from the shipped sources. -/
def statusResponse : IndexJobState → IndexStatusResponse
  | IndexJobState.idle => ⟨"idle", none, none, none⟩
  | IndexJobState.indexing r => ⟨"indexing", some r, none, none⟩
  | IndexJobState.done r s => ⟨"done", some r, some s, none⟩
  | IndexJobState.error r m => ⟨"error", some r, none, some m⟩

/-- From src/unnamed/part_000 (WelcomeScreen): the summary block is rendered
exactly under the guard `status.state === "done" && status.summary`. -/
def welcomeShowsSummary (s : IndexStatusResponse) : Bool :=
  s.state == "done" && s.summary.isSome

/-- From src/unnamed/part_000 (WelcomeScreen): the error message paragraph is
rendered exactly under the guard `status.state === "error"`. -/
def welcomeShowsMessage (s : IndexStatusResponse) : Bool :=
  s.state == "error"

/-! ## Web UI: filters panel, settings page, timing bar, index guard
(from the shipped TypeScript sources) -/

/-- From src/web/src/components/search/filters-panel.tsx: the SearchFilters
client state shape. The wire union type of retrieval_mode is embedded as a
string; unset language and path filters are the empty string. -/
structure SearchFilters where
  retrieval_mode : String
  top_k_retrieve : ℤ
  top_k_rerank : ℤ
  filter_language : String
  filter_path_prefix : String
  return_snippets : Bool

/-- From src/web/src/components/search/filters-panel.tsx lines 25-32: the
fresh (default) filters state. -/
def defaultFilters : SearchFilters := ⟨"hybrid", 100, 10, "", "", true⟩

/-- From src/unnamed/part_002 (settings page): one displayed setting row. -/
structure SettingItem where
  name : String
  envVar : String
  defaultValue : String

/-- From src/unnamed/part_002 (settings page): a titled group of settings. -/
structure SettingGroup where
  title : String
  items : List SettingItem

/-- From src/unnamed/part_002 lines 10-60: the settingGroups constant rendered
by the settings reference page. -/
def settingGroups : List SettingGroup :=
  [⟨"Search",
    [⟨"Retrieval Mode", "HERMES_SEARCH_RETRIEVAL_MODE", "hybrid"⟩,
     ⟨"Top K Retrieve", "HERMES_SEARCH_TOP_K_RETRIEVE", "100"⟩,
     ⟨"Top K Rerank", "HERMES_SEARCH_TOP_K_RERANK", "10"⟩,
     ⟨"Max Rerank Candidates", "HERMES_SEARCH_MAX_RERANK_CANDIDATES", "50"⟩,
     ⟨"Rerank Timeout (s)", "HERMES_SEARCH_RERANK_TIMEOUT_SECONDS", "10.0"⟩,
     ⟨"RRF K", "HERMES_SEARCH_RRF_K", "60"⟩]⟩,
   ⟨"Chunking",
    [⟨"Max Chars", "HERMES_CHUNK_MAX_CHARS", "1500"⟩,
     ⟨"Overlap Lines", "HERMES_CHUNK_OVERLAP_LINES", "3"⟩,
     ⟨"Min Chars", "HERMES_CHUNK_MIN_CHARS", "50"⟩]⟩,
   ⟨"Models",
    [⟨"Bi-encoder Model", "HERMES_EMBED_BIENCODER_MODEL", "all-MiniLM-L6-v2"⟩,
     ⟨"Bi-encoder Batch Size", "HERMES_EMBED_BIENCODER_BATCH_SIZE", "64"⟩,
     ⟨"Bi-encoder Max Length", "HERMES_EMBED_BIENCODER_MAX_LENGTH", "512"⟩,
     ⟨"Cross-encoder Model", "HERMES_EMBED_CROSSENCODER_MODEL", "cross-encoder/ms-marco-MiniLM-L-6-v2"⟩,
     ⟨"Cross-encoder Batch Size", "HERMES_EMBED_CROSSENCODER_BATCH_SIZE", "16"⟩,
     ⟨"Cross-encoder Max Length", "HERMES_EMBED_CROSSENCODER_MAX_LENGTH", "512"⟩,
     ⟨"Query Cache Size", "HERMES_EMBED_QUERY_CACHE_SIZE", "1024"⟩]⟩,
   ⟨"Index",
    [⟨"Use IVF", "HERMES_INDEX_FAISS_USE_IVF", "false"⟩,
     ⟨"FAISS nprobe", "HERMES_INDEX_FAISS_NPROBE", "8"⟩,
     ⟨"IVF nlist", "HERMES_INDEX_FAISS_IVF_NLIST", "100"⟩]⟩,
   ⟨"General",
    [⟨"Artifacts Directory", "HERMES_ARTIFACTS_DIR", "artifacts"⟩,
     ⟨"Log Level", "HERMES_LOG_LEVEL", "INFO"⟩,
     ⟨"JSON Logging", "HERMES_LOG_JSON", "false"⟩]⟩]

/-- From src/unnamed/part_003 (TimingBar): the record of timings is iterated
with Object.entries and summed with reduce, embedded as an association list in
insertion order. `total` is the sum of every value, whatever the keys. -/
def timingBarTotal (timings : List (String × ℚ)) : ℚ :=
  (timings.map Prod.snd).sum

/-- From src/unnamed/part_003 (TimingBar): `if (total === 0) return null` — the
component renders nothing exactly when the computed total is 0. -/
def timingBarRendersNothing (timings : List (String × ℚ)) : Bool :=
  timingBarTotal timings == 0

/-- JavaScript `parseInt` (radix 10) as used by the filters panel on number
input values: skip leading whitespace, read an optional sign, then a maximal
run of decimal digits; NaN — modelled as `none` — when no digit is read. -/
def jsParseInt (s : String) : Option ℤ :=
  let cs := s.data.dropWhile (fun c => c == ' ' || c == '\t' || c == '\n' || c == '\r')
  let signAndRest : ℤ × List Char :=
    match cs with
    | '-' :: rest => (-1, rest)
    | '+' :: rest => (1, rest)
    | rest => (1, rest)
  let ds := signAndRest.2.takeWhile Char.isDigit
  if ds.isEmpty then none
  else some (signAndRest.1 * (ds.foldl (fun acc c => acc * 10 + (c.toNat - 48)) 0 : ℕ))

/-- JavaScript `x || d` on a number `x`: the fallback `d` is taken when `x` is
NaN (`none`) or 0, otherwise `x` itself. -/
def jsOrDefault (v : Option ℤ) (d : ℤ) : ℤ :=
  match v with
  | none => d
  | some n => if n = 0 then d else n

/-- From src/web/src/components/search/filters-panel.tsx line 87: the value
stored for Top K Retrieve on input string `s` is `parseInt(s) || 100`. -/
def topKRetrieveUpdate (s : String) : ℤ :=
  jsOrDefault (jsParseInt s) 100

/-- From src/web/src/components/search/filters-panel.tsx line 100: the value
stored for Top K Rerank on input string `s` is `parseInt(s) || 10`. -/
def topKRerankUpdate (s : String) : ℤ :=
  jsOrDefault (jsParseInt s) 10

/-- From src/unnamed/part_004 (IndexGuard): the three renders the guard can
produce. -/
inductive GuardView where
  | loading
  | welcome
  | layout
deriving DecidableEq

/-- From src/unnamed/part_004 (IndexGuard.checkIndex): the hasIndex state set
after GET /index/check resolves (`res.has_index`) or throws (`false`). -/
def checkIndexUpdate (outcome : Except Unit Bool) : Option Bool :=
  match outcome with
  | Except.error _ => some false
  | Except.ok b => some b

/-- From src/unnamed/part_004 (IndexGuard): render selection on the hasIndex
state: `null` shows the connecting text, `false` the WelcomeScreen, `true` the
sidebar layout. -/
def guardRender (hasIndex : Option Bool) : GuardView :=
  match hasIndex with
  | none => GuardView.loading
  | some false => GuardView.welcome
  | some true => GuardView.layout

/-! ## Theorems -/

/-! ### Helper lemmas -/

/-- In a ranked list whose chunk ids are distinct, the rank of the id sitting
at position `i` is `i`. -/
theorem rankOf_getElem (L : List (ℕ × ℚ)) (hn : (L.map Prod.fst).Nodup)
    (i : ℕ) (hi : i < L.length) : rankOf (L[i].1) L = some i := by
  induction L generalizing i with
  | nil => simp at hi
  | cons p rest ih =>
    cases i with
    | zero => simp [rankOf]
    | succ n =>
      have hin : n < rest.length := by simpa using hi
      have hn2 : (rest.map Prod.fst).Nodup := (List.nodup_cons.mp (by simpa using hn)).2
      have hmem : (rest[n]).1 ∈ rest.map Prod.fst :=
        List.mem_map_of_mem Prod.fst (List.getElem_mem _)
      have hne : p.1 ≠ (rest[n]).1 := by
        intro h
        exact (List.nodup_cons.mp (by simpa using hn)).1 (h ▸ hmem)
      simp only [rankOf, List.getElem_cons_succ]
      rw [if_neg hne, ih hn2 n hin]
      rfl

/-- With a single input list, the fused score of a chunk at rank `r` is the
single reciprocal `1 / (k + r + 1)`. -/
theorem rrfScore_single (k : ℕ) (L : List (ℕ × ℚ)) (cid : ℕ) (r : ℕ)
    (hr : rankOf cid L = some r) : rrfScore k [L] cid = 1 / ((k : ℚ) + r + 1) := by
  simp [rrfScore, hr]

/-- With a single input list of distinct chunk ids, the fused candidate list is
already in fused-score order before sorting: scores are strictly decreasing in
the input position. -/
theorem single_scored_sorted (k : ℕ) (L : List (ℕ × ℚ)) (hn : (L.map Prod.fst).Nodup) :
    List.Sorted rrfLe ((L.map Prod.fst).map (fun cid => (cid, rrfScore k [L] cid))) := by
  rw [List.Sorted, List.pairwise_iff_getElem]
  intro i j hi hj hij
  simp only [List.getElem_map, List.length_map] at hi hj ⊢
  left
  rw [rrfScore_single k L _ i (rankOf_getElem L hn i (by simpa using hi)),
    rrfScore_single k L _ j (rankOf_getElem L hn j (by simpa using hj))]
  apply one_div_lt_one_div_of_lt
  · positivity
  · have h : ((i : ℚ)) < j := by exact_mod_cast hij
    linarith

/-- Scoring the corpus rows preserves the number of rows. -/
theorem scoreRows_length (d : ℕ) (q : Fin d → ℚ) (n : ℕ) (c : List (Fin d → ℚ)) :
    (scoreRows d q n c).length = c.length := by
  induction c generalizing n with
  | nil => rfl
  | cons v rest ih => simp [scoreRows, ih]

/-- Every scored pair scores some corpus row against the query. -/
theorem scoreRows_mem (d : ℕ) (q : Fin d → ℚ) (n : ℕ) (c : List (Fin d → ℚ))
    (p : ℕ × ℚ) (hp : p ∈ scoreRows d q n c) : ∃ v ∈ c, p.2 = dot d v q := by
  induction c generalizing n with
  | nil => simp [scoreRows] at hp
  | cons v rest ih =>
    rw [scoreRows] at hp
    rcases List.mem_cons.mp hp with h | h
    · exact ⟨v, List.mem_cons_self v rest, by rw [h]⟩
    · obtain ⟨w, hw, hh⟩ := ih (n + 1) h
      exact ⟨w, List.mem_cons_of_mem v hw, hh⟩

/-- Cauchy-Schwarz: the inner product of two unit vectors lies in `[-1, 1]`. -/
theorem dot_mem_Icc (d : ℕ) (x y : Fin d → ℚ)
    (hx : ∑ i, x i ^ 2 = 1) (hy : ∑ i, y i ^ 2 = 1) :
    -1 ≤ dot d x y ∧ dot d x y ≤ 1 := by
  have h := Finset.sum_mul_sq_le_sq_mul_sq Finset.univ x y
  rw [hx, hy, one_mul] at h
  exact abs_le.mp ((sq_le_one_iff_abs_le_one (dot d x y)).mp h)

/-- On the skip path, the assembled prefix numbers results with the same
counter that numbered the candidates, so final and retrieval ranks agree and no
rerank score is attached. -/
theorem skipResults_spec (cands : List (ℕ × ℚ)) (n topK : ℕ) :
    ∀ r ∈ numberResults n (((numberCandidates n cands).map (fun c => (c, (none : Option ℚ)))).take topK),
      r.final_rank = r.retrieval_rank ∧ r.rerank_score = none := by
  induction cands generalizing n topK with
  | nil => simp [numberCandidates, numberResults]
  | cons p rest ih =>
    cases topK with
    | zero => simp [numberResults]
    | succ t =>
      intro r hr
      rw [numberCandidates, List.map_cons, List.take_succ_cons, numberResults] at hr
      rcases List.mem_cons.mp hr with h | h
      · rw [h]
        exact ⟨rfl, rfl⟩
      · exact ih (n + 1) t r h

/-! ### Claim C1: the S3 fusion example -/

/-- C1 counterexample: on dense list `[c1, c2, c0]` and sparse list
`[c0, c1, c2]` with `k = 60`, the fused order is indeed `[c1, c0, c2]` but c0's
fused score is NOT `1/63 + 1/60`: c0 sits at 0-based rank 0 of the sparse list,
contributing `1/(60 + 0 + 1) = 1/61`, not `1/60`, so the claim's score
assertion fails. -/
theorem C1_counterexample :
    (reciprocal_rank_fusion 60
        [[(1, 9/10), (2, 8/10), (0, 7/10)], [(0, 5), (1, 4), (2, 3)]]).map Prod.fst
        = [1, 0, 2] ∧
      rrfScore 60 [[(1, 9/10), (2, 8/10), (0, 7/10)], [(0, 5), (1, 4), (2, 3)]] 0
        ≠ 1/63 + 1/60 := by
  constructor
  · norm_num [reciprocal_rank_fusion, rrfScore, rankOf, List.insertionSort,
      List.orderedInsert, rrfLe, List.filterMap_cons]
  · norm_num [rrfScore, rankOf, List.filterMap_cons]

/-- C1 (amended): for RRF with `k = 60` on dense list `[c1, c2, c0]` and sparse
list `[c0, c1, c2]`, the fused output is c1 first with score `1/61 + 1/62`,
c0 second with score `1/63 + 1/61`, and c2 third (with score `1/62 + 1/63`). -/
theorem C1_rrf_example :
    reciprocal_rank_fusion 60
        [[(1, 9/10), (2, 8/10), (0, 7/10)], [(0, 5), (1, 4), (2, 3)]]
      = [(1, 1/61 + 1/62), (0, 1/63 + 1/61), (2, 1/62 + 1/63)] := by
  norm_num [reciprocal_rank_fusion, rrfScore, rankOf, List.insertionSort,
    List.orderedInsert, rrfLe, List.filterMap_cons]

/-! ### Claim C2: default search parameters -/

/-- C2: the fresh filters state of the search page equals the spec defaults
(hybrid mode, top_k_retrieve 100, top_k_rerank 10, snippets on, no language or
path filter), and the settings reference page displays the same Search
defaults, including max_rerank_candidates 50, rerank_timeout_seconds 10.0 and
rrf_k 60. -/
theorem C2_default_search_params :
    defaultFilters = ⟨"hybrid", 100, 10, "", "", true⟩ ∧
    settingGroups.find? (fun g => g.title == "Search")
      = some ⟨"Search",
        [⟨"Retrieval Mode", "HERMES_SEARCH_RETRIEVAL_MODE", "hybrid"⟩,
         ⟨"Top K Retrieve", "HERMES_SEARCH_TOP_K_RETRIEVE", "100"⟩,
         ⟨"Top K Rerank", "HERMES_SEARCH_TOP_K_RERANK", "10"⟩,
         ⟨"Max Rerank Candidates", "HERMES_SEARCH_MAX_RERANK_CANDIDATES", "50"⟩,
         ⟨"Rerank Timeout (s)", "HERMES_SEARCH_RERANK_TIMEOUT_SECONDS", "10.0"⟩,
         ⟨"RRF K", "HERMES_SEARCH_RRF_K", "60"⟩]⟩ :=
  ⟨rfl, rfl⟩

/-! ### Claim C3: the timing bar total -/

/-- C3: for a wire-shape timings record the TimingBar total is the sum of all
four entries including total_ms, it renders nothing exactly when that sum is 0,
and on a sample record the displayed total differs from total_ms alone. -/
theorem C3_timing_bar_total (e r rr t : ℚ) :
    timingBarTotal
        [("embed_query_ms", e), ("retrieval_ms", r), ("rerank_ms", rr), ("total_ms", t)]
      = e + r + rr + t ∧
    (timingBarRendersNothing
        [("embed_query_ms", e), ("retrieval_ms", r), ("rerank_ms", rr), ("total_ms", t)] = true
      ↔ e + r + rr + t = 0) ∧
    timingBarTotal
        [("embed_query_ms", 2), ("retrieval_ms", 3), ("rerank_ms", 4), ("total_ms", 10)]
      ≠ 10 := by
  refine ⟨by simp [timingBarTotal]; ring, ?_, by norm_num [timingBarTotal]⟩
  rw [timingBarRendersNothing, beq_iff_eq]
  constructor
  · intro h
    rw [show timingBarTotal
        [("embed_query_ms", e), ("retrieval_ms", r), ("rerank_ms", rr), ("total_ms", t)]
        = e + r + rr + t from by simp [timingBarTotal]; ring] at h
    exact h
  · intro h
    simp [timingBarTotal]
    linarith

/-! ### Claim C4: rerank skip keeps retrieval order -/

/-- C4: when the cross-encoder call times out or raises (`none` outcome), the
pipeline sets rerank_skipped true and every returned result has final_rank
equal to retrieval_rank and a null rerank_score. -/
theorem C4_rerank_skip (maxCands topK : ℕ) (candidates : List (ℕ × ℚ)) :
    (pipelineTail maxCands topK candidates none).2 = true ∧
    ∀ r ∈ (pipelineTail maxCands topK candidates none).1,
      r.final_rank = r.retrieval_rank ∧ r.rerank_score = none := by
  refine ⟨rfl, ?_⟩
  exact skipResults_spec candidates 1 topK

/-- C4 witness: on the concrete candidate list `[(7, 3/4), (2, 1/2)]` with the
rerank outcome `none`, the flag is set and the first returned result keeps its
retrieval rank with no rerank score. -/
theorem C4_rerank_skip_witness :
    (pipelineTail 50 10 [(7, 3/4), (2, 1/2)] none).2 = true ∧
    (⟨7, 1, 3/4, none, 1⟩ : SearchResult) ∈ (pipelineTail 50 10 [(7, 3/4), (2, 1/2)] none).1 ∧
    ((⟨7, 1, 3/4, none, 1⟩ : SearchResult).final_rank
        = (⟨7, 1, 3/4, none, 1⟩ : SearchResult).retrieval_rank ∧
      (⟨7, 1, 3/4, none, 1⟩ : SearchResult).rerank_score = none) := by
  have hmem : (⟨7, 1, 3/4, none, 1⟩ : SearchResult)
      ∈ (pipelineTail 50 10 [(7, 3/4), (2, 1/2)] none).1 := by
    simp [pipelineTail, rerankStage, assembleStage, numberCandidates, numberResults]
  exact ⟨(C4_rerank_skip 50 10 [(7, 3/4), (2, 1/2)]).1, hmem,
    (C4_rerank_skip 50 10 [(7, 3/4), (2, 1/2)]).2 _ hmem⟩

/-! ### Claim C5: the Dense Index search contract -/

/-- C5: for every query and k, Dense Index search returns pairs in descending
score with ties broken by ascending chunk id; on a unit-norm corpus and query
all scores lie in [-1, 1]; when k exceeds the corpus size the whole scored
corpus is returned; and the empty corpus yields the empty list. -/
theorem C5_dense_search_contract (d : ℕ) (corpus : List (Fin d → ℚ)) (q : Fin d → ℚ) (k : ℕ)
    (hq : ∑ i, q i ^ 2 = 1) (hc : ∀ v ∈ corpus, ∑ i, v i ^ 2 = 1) :
    List.Sorted rrfLe (denseSearch d corpus q k) ∧
    (∀ p ∈ denseSearch d corpus q k, -1 ≤ p.2 ∧ p.2 ≤ 1) ∧
    (corpus.length < k →
      (denseSearch d corpus q k).Perm (scoreRows d q 0 corpus) ∧
      (denseSearch d corpus q k).length = corpus.length) ∧
    (corpus = [] → denseSearch d corpus q k = []) := by
  refine ⟨?_, ?_, ?_, ?_⟩
  · exact List.Pairwise.sublist (List.take_sublist _ _) (List.sorted_insertionSort rrfLe _)
  · intro p hp
    have hp1 : p ∈ (scoreRows d q 0 corpus).insertionSort rrfLe :=
      (List.take_sublist _ _).subset hp
    have hp2 : p ∈ scoreRows d q 0 corpus := (List.mem_insertionSort rrfLe).mp hp1
    obtain ⟨v, hv, hpv⟩ := scoreRows_mem d q 0 corpus p hp2
    rw [hpv]
    exact dot_mem_Icc d v q (hc v hv) hq
  · intro hk
    have hlen : ((scoreRows d q 0 corpus).insertionSort rrfLe).length = corpus.length := by
      rw [List.length_insertionSort, scoreRows_length]
    have htake : denseSearch d corpus q k = (scoreRows d q 0 corpus).insertionSort rrfLe := by
      unfold denseSearch
      exact List.take_of_length_le (by omega)
    constructor
    · rw [htake]; exact List.perm_insertionSort rrfLe _
    · rw [htake, hlen]
  · intro h
    subst h
    simp [denseSearch, scoreRows]

/-- C5 witness: a concrete two-vector unit-norm corpus in dimension 2 with a
unit query, k = 5 > N = 2: the hypotheses hold, the output is sorted, has all
N = 2 entries, and the empty corpus yields the empty output. -/
theorem C5_dense_search_contract_witness :
    ((3 : ℚ)/5) ^ 2 + ((4 : ℚ)/5) ^ 2 = 1 ∧
    List.Sorted rrfLe (denseSearch 2 [![(0 : ℚ), 1], ![(3 : ℚ)/5, 4/5]] ![(1 : ℚ), 0] 5) ∧
    (denseSearch 2 [![(0 : ℚ), 1], ![(3 : ℚ)/5, 4/5]] ![(1 : ℚ), 0] 5).length = 2 ∧
    denseSearch 2 ([] : List (Fin 2 → ℚ)) ![(1 : ℚ), 0] 5 = [] := by
  have hq : ∑ i, (![(1 : ℚ), 0]) i ^ 2 = 1 := by simp [Fin.sum_univ_two]
  have hc : ∀ v ∈ [![(0 : ℚ), 1], ![(3 : ℚ)/5, 4/5]], ∑ i, v i ^ 2 = 1 := by
    intro v hv
    fin_cases hv <;> norm_num [Fin.sum_univ_two]
  have h := C5_dense_search_contract 2 [![(0 : ℚ), 1], ![(3 : ℚ)/5, 4/5]] ![(1 : ℚ), 0] 5 hq hc
  have h0 := C5_dense_search_contract 2 ([] : List (Fin 2 → ℚ)) ![(1 : ℚ), 0] 5 hq
    (by intro v hv; simp at hv)
  exact ⟨by norm_num, h.1, (h.2.2.1 (by decide)).2, h0.2.2.2 rfl⟩

/-! ### Claim C6: HTTP 400 when no pipeline is loaded -/

/-- C6: with no pipeline loaded, /search, /stats and /reload-index all return
HTTP 400 with the body detail "No index loaded. Please index a repository
first." and leave the pipeline state unchanged. -/
theorem C6_no_index_400 (req : SearchRequest) (rebuilt : Pipeline) :
    handleSearch none req = (ApiResponse.clientError 400 noIndexDetail, none) ∧
    handleStats none = (ApiResponse.clientError 400 noIndexDetail, none) ∧
    handleReloadIndex none rebuilt = (ApiResponse.clientError 400 noIndexDetail, none) :=
  ⟨rfl, rfl, rfl⟩

/-! ### Claim C7: single-list RRF preserves the input order -/

/-- C7: applying Reciprocal Rank Fusion to one ranked list (distinct chunk ids,
sorted by its scores descending) outputs the chunks in exactly the input
order. -/
theorem C7_rrf_single_list (k : ℕ) (L : List (ℕ × ℚ))
    (hn : (L.map Prod.fst).Nodup)
    (hs : L.Sorted (fun a b => b.2 ≤ a.2)) :
    (reciprocal_rank_fusion k [L]).map Prod.fst = L.map Prod.fst := by
  clear hs
  unfold reciprocal_rank_fusion
  rw [show ([L] : List (List (ℕ × ℚ))).flatten = L by simp]
  rw [List.dedup_eq_self.mpr hn]
  rw [List.Sorted.insertionSort_eq (single_scored_sorted k L hn)]
  simp [List.map_map, Function.comp]

/-- C7 witness: the concrete descending list `[(3, 3), (7, 2), (1, 1)]` has
distinct ids, is sorted descending, and single-list RRF with k = 60 returns its
chunks in the input order 3, 7, 1. -/
theorem C7_rrf_single_list_witness :
    (([((3 : ℕ), (3 : ℚ)), (7, 2), (1, 1)]).map Prod.fst).Nodup ∧
    ([((3 : ℕ), (3 : ℚ)), (7, 2), (1, 1)]).Sorted (fun a b => b.2 ≤ a.2) ∧
    (reciprocal_rank_fusion 60 [[((3 : ℕ), (3 : ℚ)), (7, 2), (1, 1)]]).map Prod.fst
      = [3, 7, 1] := by
  have hn : (([((3 : ℕ), (3 : ℚ)), (7, 2), (1, 1)]).map Prod.fst).Nodup := by decide
  have hs : ([((3 : ℕ), (3 : ℚ)), (7, 2), (1, 1)]).Sorted (fun a b => b.2 ≤ a.2) := by
    norm_num [List.sorted_cons]
  exact ⟨hn, hs, C7_rrf_single_list 60 [((3 : ℕ), (3 : ℚ)), (7, 2), (1, 1)] hn hs⟩

/-! ### Claim C8: indexing status states and field presence -/

/-- C8: every status response has state among idle, indexing, done, error, with
summary present exactly in done and message exactly in error; and the welcome
screen shows the summary block only under done and the message only under
error. -/
theorem C8_index_status_fields (st : IndexJobState) :
    ((statusResponse st).state = "idle" ∨ (statusResponse st).state = "indexing" ∨
      (statusResponse st).state = "done" ∨ (statusResponse st).state = "error") ∧
    ((statusResponse st).summary.isSome ↔ (statusResponse st).state = "done") ∧
    ((statusResponse st).message.isSome ↔ (statusResponse st).state = "error") ∧
    (∀ s : IndexStatusResponse,
      (welcomeShowsSummary s = true ↔ s.state = "done" ∧ s.summary.isSome = true) ∧
      (welcomeShowsMessage s = true ↔ s.state = "error")) := by
  refine ⟨?_, ?_, ?_, ?_⟩
  · cases st <;> simp [statusResponse]
  · cases st <;> simp [statusResponse]
  · cases st <;> simp [statusResponse]
  · intro s
    constructor
    · simp [welcomeShowsSummary]
    · simp [welcomeShowsMessage]

/-! ### Claim C9: top-k number inputs parse with fallback, without clamping -/

/-- C9: the filters panel stores `parseInt(s)` for Top K Retrieve and Top K
Rerank whenever it is a non-zero number — whatever its magnitude, with no
clamping to the spec ranges — and falls back to 100 (respectively 10) when
`parseInt(s)` is NaN or 0. -/
theorem C9_topk_parse (s : String) :
    (jsParseInt s = none → topKRetrieveUpdate s = 100 ∧ topKRerankUpdate s = 10) ∧
    (jsParseInt s = some 0 → topKRetrieveUpdate s = 100 ∧ topKRerankUpdate s = 10) ∧
    (∀ n : ℤ, n ≠ 0 → jsParseInt s = some n →
      topKRetrieveUpdate s = n ∧ topKRerankUpdate s = n) := by
  refine ⟨?_, ?_, ?_⟩
  · intro h
    simp [topKRetrieveUpdate, topKRerankUpdate, jsOrDefault, h]
  · intro h
    simp [topKRetrieveUpdate, topKRerankUpdate, jsOrDefault, h]
  · intro n hn h
    simp [topKRetrieveUpdate, topKRerankUpdate, jsOrDefault, h, hn]

/-- C9 witness: the out-of-range input "5000" parses to 5000 and is stored
unclamped in both fields (5000 lies outside both spec ranges), while the empty
input parses to NaN and falls back to the defaults 100 and 10. -/
theorem C9_topk_parse_witness :
    jsParseInt "5000" = some 5000 ∧ (5000 : ℤ) ≠ 0 ∧
    topKRetrieveUpdate "5000" = 5000 ∧ topKRerankUpdate "5000" = 5000 ∧
    ¬((5000 : ℤ) ≤ 1000) ∧ ¬((5000 : ℤ) ≤ 200) ∧
    jsParseInt "" = none ∧ topKRetrieveUpdate "" = 100 ∧ topKRerankUpdate "" = 10 := by
  have h5 := (C9_topk_parse "5000").2.2 5000 (by decide) (by decide)
  have h0 := (C9_topk_parse "").1 (by decide)
  exact ⟨by decide, by decide, h5.1, h5.2, by decide, by decide, by decide, h0.1, h0.2⟩

/-! ### Claim C10: the index guard falls back to the welcome screen -/

/-- C10: when GET /index/check throws, IndexGuard stores hasIndex = false and
renders the WelcomeScreen, exactly as for a successful response with
has_index = false; the sidebar layout is rendered exactly for a successful
response with has_index = true; before any response it shows the connecting
state. -/
theorem C10_index_guard_fallback (b : Bool) :
    guardRender (checkIndexUpdate (Except.error ())) = GuardView.welcome ∧
    guardRender (checkIndexUpdate (Except.error ()))
      = guardRender (checkIndexUpdate (Except.ok false)) ∧
    (guardRender (checkIndexUpdate (Except.ok b)) = GuardView.layout ↔ b = true) ∧
    guardRender none = GuardView.loading := by
  refine ⟨rfl, rfl, ?_, rfl⟩
  cases b <;> simp [checkIndexUpdate, guardRender]
